import Mathlib

/-!
Formal model of the `wjm` job-scheduler helper library: a shallow embedding of
`src/python/job_helpers.py` and `src/python/analysis/results_analyzer.py`,
together with theorems about the behaviour of the embedded operations.

Modelling conventions:
* Python numeric values that only ever flow through comparisons and exact
  decimal arithmetic (metric values, runtimes in whole seconds) are modelled as
  exact rationals / integers.
* The filesystem read by the analyzer is modelled as first-order data
  (association lists) so everything is computable and decidable.
* The external scheduler process is modelled as an oracle
  `Subproc : List String → LaunchResult`: either captured output
  (return code / stdout / stderr) or an exception raised by
  `subprocess.run` before the process produces output.  The exception kind
  matters: the source's `except` clauses name `subprocess.SubprocessError`,
  which does NOT cover the `OSError` (`FileNotFoundError` /
  `PermissionError`) that an actual failure to start the process raises, so
  the two kinds are kept distinct.
-/

namespace Wjm

/-! ### Basic string utilities -/

/-- `leadsWith n h` is true when the char list `n` is an initial segment of `h`. -/
def leadsWith : List Char → List Char → Bool
  | [], _ => true
  | _ :: _, [] => false
  | a :: as, b :: bs => a == b && leadsWith as bs

/-- Substring test on char lists, modelling Python's `in` on `str`. -/
def listSubstr (needle : List Char) : List Char → Bool
  | [] => leadsWith needle []
  | c :: rest => leadsWith needle (c :: rest) || listSubstr needle rest

/-- `substrIn needle hay` models Python `needle in hay` for strings. -/
def substrIn (needle hay : String) : Bool :=
  listSubstr needle.toList hay.toList

/-- Lexicographic comparison of char lists by code point, as Python `str` `<`. -/
def charsLt : List Char → List Char → Bool
  | [], [] => false
  | [], _ :: _ => true
  | _ :: _, [] => false
  | a :: as, b :: bs => a < b || (a == b && charsLt as bs)

/-- Value of an ASCII digit. -/
def digitVal (c : Char) : Nat := c.toNat - 48

/-- ASCII whitespace, the subset of Python's `\s` relevant to this code. -/
def isSpaceChar (c : Char) : Bool :=
  c == ' ' || c == '\t' || c == '\n' || c == '\r' || c == '\x0b' || c == '\x0c'

/-- Python `str.strip()` (for the ASCII whitespace relevant here). -/
def pyStrip (s : String) : String :=
  String.mk (((s.toList.dropWhile isSpaceChar).reverse.dropWhile isSpaceChar).reverse)

/-- Python `str.lower()` (ASCII). -/
def lowerStr (s : String) : String :=
  String.mk (s.toList.map Char.toLower)

/-- Python `str.split('\n')`: accumulator-based splitting on newlines,
keeping empty fields (`"a\n"` splits to `["a", ""]`). -/
def splitLinesGo : List Char → List Char → List String
  | acc, [] => [String.mk acc.reverse]
  | acc, c :: r =>
    if c == '\n' then String.mk acc.reverse :: splitLinesGo [] r
    else splitLinesGo (c :: acc) r

def splitLines (s : String) : List String := splitLinesGo [] s.toList

/-- Split a char list at the first `'='`, dropping the `'='` itself:
Python `line.split('=', 1)` for a line known to contain `'='`
(if there is no `'='` the whole input is returned as the key; the caller
only invokes this under an `'=' in line` guard, as the source does). -/
def breakAtEq : List Char → List Char × List Char
  | [] => ([], [])
  | c :: r =>
    if c == '=' then ([], r)
    else
      let p := breakAtEq r
      (c :: p.1, p.2)

/-! ### A small matching engine for the fixed regular expressions of
`extract_metrics` (`results_analyzer.py` lines 90-108).

Every pattern in the source has the shape
`<literal/optional-class items> <one-or-more separator> (<capture class>+)`,
with the capture group last and each character class disjoint from the item
that follows it, so greedy matching with local backtracking (implemented via
`Option.orElse`) coincides with Python `re` semantics on these patterns.
`re.IGNORECASE` is modelled by comparing literals case-insensitively. -/

inductive PatItem
  | lit (c : Char)
  | optCls (cls : Char → Bool)
  | plusCls (cls : Char → Bool)
  | starCls (cls : Char → Bool)

/-- Match a list of pattern items against input, returning the remaining
input after the match.  Greedy with backtracking (`orElse`), preferring the
longer consumption first, as `re` does.  The `fuel` argument only ensures
structural termination: every recursive call strictly decreases
`items.length + s.length`, so `items.length + s.length + 1` fuel suffices. -/
def matchItems : Nat → List PatItem → List Char → Option (List Char)
  | 0, _, _ => none
  | _ + 1, [], s => some s
  | _ + 1, .lit _ :: _, [] => none
  | fuel + 1, .lit c :: items, x :: s =>
    if x.toLower == c.toLower then matchItems fuel items s else none
  | fuel + 1, .optCls _ :: items, [] => matchItems fuel items []
  | fuel + 1, .optCls cls :: items, x :: s =>
    if cls x then
      (matchItems fuel items s).orElse (fun _ => matchItems fuel items (x :: s))
    else matchItems fuel items (x :: s)
  | _ + 1, .plusCls _ :: _, [] => none
  | fuel + 1, .plusCls cls :: items, x :: s =>
    if cls x then matchItems fuel (.starCls cls :: items) s else none
  | fuel + 1, .starCls _ :: items, [] => matchItems fuel items []
  | fuel + 1, .starCls cls :: items, x :: s =>
    if cls x then
      (matchItems fuel (.starCls cls :: items) s).orElse
        (fun _ => matchItems fuel items (x :: s))
    else matchItems fuel items (x :: s)

/-- A source pattern: prefix items followed by a final one-or-more capture
group of charaters from `cap`. -/
structure Pat where
  pre : List PatItem
  cap : Char → Bool

/-- Try to match pattern `p` at the head of `s`; on success return the text
captured by the final group and the remaining input after the whole match. -/
def matchPatAt (p : Pat) (s : List Char) : Option (String × List Char) :=
  match matchItems (p.pre.length + s.length + 1) p.pre s with
  | none => none
  | some rest =>
    let cap := rest.takeWhile p.cap
    if cap.isEmpty then none
    else some (String.mk cap, rest.dropWhile p.cap)

/-- Scan for all non-overlapping matches left to right, resuming after each
match end: `re.findall`, returning the capture-group texts.  `fuel` is the
input length; each step consumes at least one character. -/
def findallGo (p : Pat) : Nat → List Char → List String
  | 0, _ => []
  | _ + 1, [] => []
  | fuel + 1, c :: rest =>
    match matchPatAt p (c :: rest) with
    | some (cap, after) => cap :: findallGo p fuel after
    | none => findallGo p fuel rest

/-- `re.findall(pattern, logs, re.IGNORECASE)` for the patterns of
`extract_metrics`. -/
def findall (p : Pat) (logs : String) : List String :=
  findallGo p logs.toList.length logs.toList

/-! ### Python `float()` conversion, modelled over exact rationals.

Only invoked on strings produced by the capture classes above
(digits, `.`, `e`, `E`, `-`), for which Python accepts exactly
`[sign] (digits [. digits] | . digits | digits .) [(e|E) [sign] digits]`. -/

def digitsToNat (ds : List Char) : Nat :=
  ds.foldl (fun n c => 10 * n + digitVal c) 0

/-- Powers of ten over ℕ, written recursively so that kernel reduction
(`decide`) can evaluate it. -/
def pow10 : Nat → Nat
  | 0 => 1
  | n + 1 => 10 * pow10 n

/-- `pyFloat? s = some q` iff Python `float(s)` succeeds, with `q` the exact
decimal value (`float` rounds to binary, but every use in the source only
compares or reports the values, so the exact rational is a faithful model). -/
def pyFloat? (s : String) : Option ℚ :=
  let cs := s.toList
  let sgn := match cs with
    | '-' :: r => (true, r)
    | '+' :: r => (false, r)
    | r => (false, r)
  let neg := sgn.1
  let cs1 := sgn.2
  let ip := cs1.takeWhile Char.isDigit
  let cs2 := cs1.dropWhile Char.isDigit
  let fr := match cs2 with
    | '.' :: r => (some (r.takeWhile Char.isDigit), r.dropWhile Char.isDigit)
    | r => (none, r)
  let fp := fr.1
  let cs3 := fr.2
  if ip.isEmpty && (fp.getD []).isEmpty then none
  else
    let fd := fp.getD []
    let base : Nat := digitsToNat ip * pow10 fd.length + digitsToNat fd
    let num0 : Int := if neg then -(base : Int) else (base : Int)
    let den0 : Nat := pow10 fd.length
    match cs3 with
    | [] => some (Rat.divInt num0 den0)
    | e :: r =>
      if e == 'e' || e == 'E' then
        let esgn := match r with
          | '-' :: rr => (true, rr)
          | '+' :: rr => (false, rr)
          | rr => (false, rr)
        let ed := esgn.2.takeWhile Char.isDigit
        let r2 := esgn.2.dropWhile Char.isDigit
        if ed.isEmpty || !r2.isEmpty then none
        else if esgn.1 then some (Rat.divInt num0 (den0 * pow10 (digitsToNat ed)))
        else some (Rat.divInt (num0 * (pow10 (digitsToNat ed) : Int)) den0)
      else none

/-! ### Metric values and `extract_metrics` (`results_analyzer.py` 78-110) -/

/-- A metric value: the numeric conversion of the last match, or the raw
matched text when `float()` fails (§ "Dynamic, loosely-typed metric values"). -/
inductive MetricValue
  | num (q : ℚ)
  | raw (s : String)
deriving DecidableEq, Repr

/-- `float(matches[-1])` with the `except ValueError` fallback. -/
def convertMetric (s : String) : MetricValue :=
  match pyFloat? s with
  | some q => .num q
  | none => .raw s

/-- Separator class `[:\s]`. -/
def sepCls (c : Char) : Bool := c == ':' || isSpaceChar c

/-- Value class `[0-9.]`. -/
def numCls (c : Char) : Bool := c.isDigit || c == '.'

/-- Value class `[0-9.e-]` under `re.IGNORECASE` (so `E` matches too). -/
def lrCls (c : Char) : Bool := c.isDigit || c == '.' || c == 'e' || c == 'E' || c == '-'

/-- Class `[_\s]`. -/
def usCls (c : Char) : Bool := c == '_' || isSpaceChar c

/-- Case-insensitive literal items for a label. -/
def litsOf (s : String) : List PatItem := s.toList.map PatItem.lit

def accuracyPat : Pat := ⟨litsOf "Accuracy" ++ [.plusCls sepCls], numCls⟩
def lossPat : Pat := ⟨litsOf "Loss" ++ [.plusCls sepCls], numCls⟩
def timePat : Pat := ⟨litsOf "Time" ++ [.plusCls sepCls], numCls⟩
def epochPat : Pat := ⟨litsOf "Epoch" ++ [.plusCls sepCls], Char.isDigit⟩
def learningRatePat : Pat :=
  ⟨litsOf "Learning" ++ [.optCls usCls] ++ litsOf "Rate" ++ [.plusCls sepCls], lrCls⟩
def f1ScorePat : Pat :=
  ⟨litsOf "F1" ++ [.optCls usCls] ++ litsOf "Score" ++ [.plusCls sepCls], numCls⟩
def precisionPat : Pat := ⟨litsOf "Precision" ++ [.plusCls sepCls], numCls⟩
def recallPat : Pat := ⟨litsOf "Recall" ++ [.plusCls sepCls], numCls⟩

/-- The ordered pattern catalogue of `extract_metrics`. -/
def metricPatterns : List (Pat × String) :=
  [(accuracyPat, "accuracy"), (lossPat, "loss"), (timePat, "time"),
   (epochPat, "epochs"), (learningRatePat, "learning_rate"),
   (f1ScorePat, "f1_score"), (precisionPat, "precision"), (recallPat, "recall")]

/-- The loop body of `extract_metrics`: for each pattern in order, if it has
matches, record the converted last match under the metric name (dict insertion
modelled as append; the names in the catalogue are pairwise distinct). -/
def extractGo (logs : String) :
    List (Pat × String) → List (String × MetricValue) → List (String × MetricValue)
  | [], m => m
  | (p, name) :: rest, m =>
    extractGo logs rest
      (match (findall p logs).getLast? with
       | some v => m ++ [(name, convertMetric v)]
       | none => m)

/-- `extract_metrics(logs)`: metric name → value association (a Python dict;
lookups use the first hit, names are distinct so this is dict-faithful). -/
def extract_metrics (logs : String) : List (String × MetricValue) :=
  extractGo logs metricPatterns []

/-! ### `datetime.strptime(s, '%Y-%m-%d %H:%M:%S')` and runtime calculation
(`results_analyzer.py` 112-126).

CPython's `_strptime` compiles the format to a regex:
`%Y` is exactly four digits, `%m` is `1[0-2]|0[1-9]|[1-9]`,
`%d` is `3[01]|[12]\d|0[1-9]|[1-9]`, `%H` is `2[0-3]|[0-1]\d|\d`,
`%M`/`%S` are `[0-5]\d|\d`, literal whitespace in the format becomes `\s+`,
the match is anchored at the start and trailing unconverted data is an error;
the parsed fields then go through the `datetime` constructor, which rejects
day-out-of-range and year 0.  Each component below implements the ordered
regex alternation; for these components committing to the first locally
matching alternative agrees with regex backtracking because the
follow-set (a fixed separator) is disjoint from the digit classes. -/

structure DT where
  year : Nat
  month : Nat
  day : Nat
  hour : Nat
  minute : Nat
  second : Nat
deriving DecidableEq, Repr

def isNonzeroDigit (c : Char) : Bool := c.isDigit && !(c == '0')

/-- `%Y`: exactly four digits. -/
def parseYear : List Char → Option (Nat × List Char)
  | a :: b :: c :: d :: rest =>
    if a.isDigit && b.isDigit && c.isDigit && d.isDigit then
      some (1000 * digitVal a + 100 * digitVal b + 10 * digitVal c + digitVal d, rest)
    else none
  | _ => none

/-- `%m`: `1[0-2]|0[1-9]|[1-9]`. -/
def parseMonth : List Char → Option (Nat × List Char)
  | '1' :: c :: rest =>
    if c == '0' || c == '1' || c == '2' then some (10 + digitVal c, rest)
    else some (1, c :: rest)
  | '0' :: c :: rest =>
    if isNonzeroDigit c then some (digitVal c, rest) else none
  | c :: rest => if isNonzeroDigit c then some (digitVal c, rest) else none
  | [] => none

/-- `%d`: `3[01]|[12]\d|0[1-9]|[1-9]`. -/
def parseDay : List Char → Option (Nat × List Char)
  | '3' :: c :: rest =>
    if c == '0' || c == '1' then some (30 + digitVal c, rest) else some (3, c :: rest)
  | '1' :: c :: rest =>
    if c.isDigit then some (10 + digitVal c, rest) else some (1, c :: rest)
  | '2' :: c :: rest =>
    if c.isDigit then some (20 + digitVal c, rest) else some (2, c :: rest)
  | '0' :: c :: rest =>
    if isNonzeroDigit c then some (digitVal c, rest) else none
  | c :: rest => if isNonzeroDigit c then some (digitVal c, rest) else none
  | [] => none

/-- `%H`: `2[0-3]|[0-1]\d|\d`. -/
def parseHour : List Char → Option (Nat × List Char)
  | '2' :: c :: rest =>
    if c == '0' || c == '1' || c == '2' || c == '3' then some (20 + digitVal c, rest)
    else some (2, c :: rest)
  | '0' :: c :: rest =>
    if c.isDigit then some (digitVal c, rest) else some (0, c :: rest)
  | '1' :: c :: rest =>
    if c.isDigit then some (10 + digitVal c, rest) else some (1, c :: rest)
  | c :: rest => if c.isDigit then some (digitVal c, rest) else none
  | [] => none

/-- `%M` and `%S`: `[0-5]\d|\d`. -/
def parseMS : List Char → Option (Nat × List Char)
  | a :: b :: rest =>
    if (a.isDigit && decide (a.toNat ≤ 53)) && b.isDigit then
      some (10 * digitVal a + digitVal b, rest)
    else if a.isDigit then some (digitVal a, b :: rest)
    else none
  | [a] => if a.isDigit then some (digitVal a, []) else none
  | [] => none

/-- Match one literal separator character. -/
def expectChar (c : Char) : List Char → Option (List Char)
  | x :: rest => if x == c then some rest else none
  | [] => none

/-- `\s+` (whitespace in the format string). -/
def expectSpaces : List Char → Option (List Char)
  | x :: rest => if isSpaceChar x then some (rest.dropWhile isSpaceChar) else none
  | [] => none

def isLeap (y : Nat) : Bool := y % 4 == 0 && (!(y % 100 == 0) || y % 400 == 0)

def daysInMonth (y m : Nat) : Nat :=
  if m == 2 then (if isLeap y then 29 else 28)
  else if m == 4 || m == 6 || m == 9 || m == 11 then 30
  else 31

/-- `strptime(s, '%Y-%m-%d %H:%M:%S')`: `some` on success, `none` when the
regex does not consume the whole string or the `datetime` constructor rejects
the field values. -/
def strptime? (s : String) : Option DT := do
  let (y, r1) ← parseYear s.toList
  let r2 ← expectChar '-' r1
  let (mo, r3) ← parseMonth r2
  let r4 ← expectChar '-' r3
  let (d, r5) ← parseDay r4
  let r6 ← expectSpaces r5
  let (h, r7) ← parseHour r6
  let r8 ← expectChar ':' r7
  let (mi, r9) ← parseMS r8
  let r10 ← expectChar ':' r9
  let (sec, r11) ← parseMS r10
  if !r11.isEmpty then none
  else if y == 0 then none
  else if d > daysInMonth y mo then none
  else some ⟨y, mo, d, h, mi, sec⟩

/-- Days before January 1st of year `y` in the proleptic Gregorian calendar
(CPython `_days_before_year`). -/
def daysBeforeYear (y : Nat) : Nat :=
  let n := y - 1
  365 * n + n / 4 - n / 100 + n / 400

/-- Days in year `y` before the first of month `m`. -/
def daysBeforeMonth (y m : Nat) : Nat :=
  (List.range (m - 1)).foldl (fun acc i => acc + daysInMonth y (i + 1)) 0

/-- Absolute second count of a parsed timestamp; differences of this model
`(end_dt - start_dt).total_seconds()` exactly. -/
def dtSecs (t : DT) : Int :=
  ((daysBeforeYear t.year + daysBeforeMonth t.year t.month + (t.day - 1)) * 86400
    + t.hour * 3600 + t.minute * 60 + t.second : Nat)

/-- Python-dict lookup over an association list built by repeated assignment:
the LAST binding of a key wins. -/
def dictGet? (xs : List (String × String)) (k : String) : Option String :=
  xs.foldl (fun acc kv => if kv.1 == k then some kv.2 else acc) none

/-- `info.get(k, dflt)`. -/
def dictGet (xs : List (String × String)) (k dflt : String) : String :=
  (dictGet? xs k).getD dflt

/-- `calculate_runtime(info)` (`results_analyzer.py` 112-126): `some` of the
elapsed whole seconds, `none` ("Absent") on any missing/empty/sentinel field,
parse failure, or negative difference.  Total — the `try/except` of the
source means the operation never raises. -/
def calculate_runtime (info : List (String × String)) : Option Int :=
  match dictGet? info "START_TIME", dictGet? info "END_TIME" with
  | some s, some e =>
    if s = "" ∨ e = "" ∨ s = "N/A" ∨ e = "N/A" then none
    else
      match strptime? s, strptime? e with
      | some ds, some de =>
        let d := dtSecs de - dtSecs ds
        if 0 ≤ d then some d else none
      | _, _ => none
  | _, _ => none

/-! ### Filesystem model and the metadata reader (`results_analyzer.py` 27-76) -/

/-- One archive batch subdirectory: its directory name, and per-job `job.info`
file contents (as lines) and per-job `<job>.log` contents. -/
structure Batch where
  name : String
  jobsInfo : List (String × List String)
  jobsLog : List (String × String)
deriving DecidableEq, Repr

/-- The slice of the filesystem the analyzer reads: the live per-job
directories and the archive subdirectories, in directory-listing order. -/
structure FS where
  liveInfo : List (String × List String)
  liveLog : List (String × String)
  archive : List Batch
deriving DecidableEq, Repr

/-- The glob `[0-9][0-9][0-9]`: exactly three ASCII digits. -/
def isBatchName (s : String) : Bool :=
  s.toList.length == 3 && s.toList.all Char.isDigit

/-- One line of a `job.info` file: skipped when it has no `'='`, otherwise
stripped and split at the first `'='`. -/
def parseLine (line : String) : Option (String × String) :=
  if line.toList.contains '=' then
    let p := breakAtEq (pyStrip line).toList
    some (String.mk p.1, String.mk p.2)
  else none

/-- Parse a `job.info` file given as lines (`results_analyzer.py` 50-57). -/
def parseInfo (lines : List String) : List (String × String) :=
  lines.filterMap parseLine

/-- `get_job_info(job_id)`: live directory first, then the first three-digit
archive batch that has the job; `none` ("NotFound") when neither does. -/
def get_job_info (fs : FS) (job_id : String) : Option (List (String × String)) :=
  match fs.liveInfo.lookup job_id with
  | some lines => some (parseInfo lines)
  | none =>
    match (fs.archive.filter fun b => isBatchName b.name).findSome?
        (fun b => b.jobsInfo.lookup job_id) with
    | some lines => some (parseInfo lines)
    | none => none

/-- `get_job_logs(job_id)`: same live-then-archive search for the log file. -/
def get_job_logs (fs : FS) (job_id : String) : Option String :=
  match fs.liveLog.lookup job_id with
  | some l => some l
  | none =>
    (fs.archive.filter fun b => isBatchName b.name).findSome?
      (fun b => b.jobsLog.lookup job_id)

/-! ### `analyze_job` and `compare_jobs` (`results_analyzer.py` 128-202) -/

/-- `format_duration(seconds)`; Python `//` and `%` are floor division and
matching-sign modulus. -/
def format_duration (seconds : Int) : String :=
  let minutes := Int.fdiv seconds 60
  let secs := Int.fmod seconds 60
  if minutes > 0 then toString minutes ++ "m " ++ toString secs ++ "s"
  else toString secs ++ "s"

/-- The analysis dictionary for a found job. -/
structure JobRec where
  job_id : String
  name : String
  status : String
  weight : String
  gpu : String
  priority : String
  runtime_seconds : Option Int
  runtime_formatted : String
  metrics : List (String × MetricValue)
  exit_code : String
  user : String
deriving DecidableEq, Repr

/-- Result of `analyze_job`: either the `{"error": ...}` dictionary or the
full analysis record. -/
inductive Analysis
  | err (msg : String)
  | ok (r : JobRec)
deriving DecidableEq, Repr

/-- Builds the analysis record of a found, non-empty metadata dictionary.
`logs and extract_metrics(logs)` is guarded by Python truthiness: a missing
log file AND an empty log file both give an empty metrics dict; a runtime of
`None` or `0.0` formats as `"N/A"`. -/
def mkRecord (fs : FS) (job_id : String) (info : List (String × String)) : JobRec :=
  { job_id := job_id
    name := dictGet info "JOB_NAME" "N/A"
    status := dictGet info "STATUS" "UNKNOWN"
    weight := dictGet info "WEIGHT" "10"
    gpu := dictGet info "GPU" "N/A"
    priority := dictGet info "PRIORITY" "normal"
    runtime_seconds := calculate_runtime info
    runtime_formatted :=
      match calculate_runtime info with
      | some r => if r = 0 then "N/A" else format_duration r
      | none => "N/A"
    metrics :=
      match get_job_logs fs job_id with
      | some l => if l = "" then [] else extract_metrics l
      | none => []
    exit_code := dictGet info "EXIT_CODE" "N/A"
    user := dictGet info "USER" "N/A" }

/-- `analyze_job(job_id)`; `if not info:` makes both a missing file and an
empty parsed dictionary produce the error entry. -/
def analyze_job (fs : FS) (job_id : String) : Analysis :=
  match get_job_info fs job_id with
  | none => .err ("Job " ++ job_id ++ " not found")
  | some info =>
    if info.isEmpty then .err ("Job " ++ job_id ++ " not found")
    else .ok (mkRecord fs job_id info)

/-- `a.get('runtime_seconds')` filtered by Python truthiness: the comprehension
guard of `compare_jobs` (line 177) drops error entries, absent runtimes AND a
runtime of exactly `0.0`. -/
def truthyRuntime : Analysis → Option (String × Int)
  | .err _ => none
  | .ok r =>
    match r.runtime_seconds with
    | some v => if v = 0 then none else some (r.job_id, v)
    | none => none

/-- Python truthiness of a metric value (`0.0` and `""` are falsy). -/
def pyTruthy : MetricValue → Bool
  | .num q => decide (q ≠ 0)
  | .raw s => decide (s ≠ "")

/-- `a.get('metrics', {}).get('accuracy')` filtered by truthiness
(`compare_jobs` line 187). -/
def truthyAccuracy : Analysis → Option (String × MetricValue)
  | .err _ => none
  | .ok r =>
    match r.metrics.lookup "accuracy" with
    | some v => if pyTruthy v then some (r.job_id, v) else none
    | none => none

/-- The `valid_runtimes` comprehension. -/
def validRuntimePairs (l : List Analysis) : List (String × Int) :=
  l.filterMap truthyRuntime

/-- The `valid_accuracy` comprehension. -/
def validAccuracyPairs (l : List Analysis) : List (String × MetricValue) :=
  l.filterMap truthyAccuracy

def ltIntB (a b : Int) : Bool := decide (a < b)

/-- Python `>` on the dynamically-typed metric values: numbers compare
numerically, strings lexicographically; on a mixed pair CPython raises
`TypeError` — the theorems below only invoke the comparison on all-numeric
inputs, where this total model agrees with Python. -/
def pyGtB : MetricValue → MetricValue → Bool
  | .num a, .num b => decide (b < a)
  | .raw a, .raw b => charsLt b.toList a.toList
  | _, _ => false

/-- `min(valid_runtimes, key=lambda x: x[1])[0]`: CPython `min` keeps the
current candidate on ties, so the first minimum wins. -/
def pickMin (l : List (String × Int)) : Option String :=
  match l with
  | [] => none
  | x :: xs => some ((xs.foldl (fun b y => if ltIntB y.2 b.2 then y else b) x).1)

/-- `max(valid_accuracy, key=lambda x: x[1])[0]`: first maximum wins. -/
def pickMax (l : List (String × MetricValue)) : Option String :=
  match l with
  | [] => none
  | x :: xs => some ((xs.foldl (fun b y => if pyGtB y.2 b.2 then y else b) x).1)

/-- `compare_jobs` result (the constant-empty `"summary"` dict is omitted). -/
structure Comparison where
  jobs : List Analysis
  best_runtime : Option String
  best_accuracy : Option String
deriving DecidableEq, Repr

/-- `compare_jobs(job_ids)` (`results_analyzer.py` 157-193). -/
def compare_jobs (fs : FS) (job_ids : List String) : Comparison :=
  let analyses := job_ids.map (analyze_job fs)
  { jobs := analyses
    best_runtime := pickMin (validRuntimePairs analyses)
    best_accuracy := pickMax (validAccuracyPairs analyses) }

/-! ### Scheduler client (`job_helpers.py`)

The external process is an oracle: for a command line it either returns
captured output or raises at launch.  Python distinguishes the exception
kinds: `subprocess.SubprocessError` is what the source's `except` clauses
name (with `check=False` and no timeout it is essentially unreachable from
`subprocess.run`), while an actual failure to start the process raises an
`OSError` (`FileNotFoundError` / `PermissionError`), which those clauses do
NOT catch.  Exceptions that propagate out of an operation are modelled by
`Except.error`; results the Python function `return`s are `Except.ok`. -/

structure RunOut where
  returncode : Int
  stdout : String
  stderr : String

/-- An exception raised by `subprocess.run` at launch, tagged by the Python
exception class that a handler would have to name to catch it. -/
inductive LaunchExc
  | subprocessError (msg : String)
  | osError (msg : String)

inductive LaunchResult
  | ok (r : RunOut)
  | raised (e : LaunchExc)

def Subproc : Type := List String → LaunchResult

/-- The exceptions of the helper library that reach (or escape) callers. -/
inductive PyExc
  | valueError (msg : String)
  | fileNotFoundError (msg : String)
  | runtimeError (msg : String)
  | subprocessError (msg : String)
  | osError (msg : String)
deriving DecidableEq, Repr

/-- Observable side effects of `submit_job`, in order of occurrence. -/
inductive Effect
  | statScript (path : String)
  | readScript (path : String)
  | writeTemp (content : String)
  | launch (cmd : List String)
  | unlinkTemp
deriving DecidableEq, Repr

/-- The priority whitelist (`job_helpers.py` line 71). -/
def validPriority (p : String) : Bool :=
  p == "urgent" || p == "high" || p == "normal" || p == "low"

/-- The GPU-spec check (line 77): every character of the stripped spec is a
digit or a comma — vacuously true for the empty string. -/
def validGpu (g : String) : Bool :=
  (pyStrip g).toList.all (fun c => c.isDigit || c == ',')

/-- The job-file lines (lines 86-96): directive comments for non-default
weight / truthy gpu / non-default priority, then the script content. -/
def buildLines (weight : Int) (gpu : Option String) (pr : String)
    (scriptContent : String) : List String :=
  (if weight = 10 then [] else ["# WEIGHT: " ++ toString weight]) ++
  (match gpu with
   | some g => if g = "" then [] else ["# GPU: " ++ g]
   | none => []) ++
  (if pr = "normal" then [] else ["# PRIORITY: " ++ pr]) ++
  [scriptContent]

/-- `re.search(r'job_\d{3}', ...)` / `re.findall` support: the job-id matches
of a char list, scanning left to right, non-overlapping, resuming after each
match (`fuel` = input length). -/
def findJobIdsGo : Nat → List Char → List String
  | 0, _ => []
  | _ + 1, [] => []
  | fuel + 1, s@(_ :: rest) =>
    match s with
    | 'j' :: 'o' :: 'b' :: '_' :: a :: b :: c :: after =>
      if a.isDigit && b.isDigit && c.isDigit then
        String.mk ['j', 'o', 'b', '_', a, b, c] :: findJobIdsGo fuel after
      else findJobIdsGo fuel rest
    | _ => findJobIdsGo fuel rest

/-- All `job_\d{3}` tokens of a string, in order. -/
def findJobIds (s : String) : List String :=
  findJobIdsGo s.toList.length s.toList

/-- `re.search(r'job_\d{3}', line)`: the leftmost match, case-sensitively. -/
def searchJobId (line : String) : Option String :=
  (findJobIds line).head?

/-- The stdout scan of `submit_job` (lines 129-136): the first line whose
lowercasing contains `job_` AND that has a case-sensitive `job_\d{3}` token;
a line passing the first test but not the second is skipped. -/
def findJobIdInLines : List String → Option String
  | [] => none
  | l :: rest =>
    if substrIn "job_" (lowerStr l) then
      match searchJobId l with
      | some j => some j
      | none => findJobIdInLines rest
    else findJobIdInLines rest

/-- `submit_job` (`job_helpers.py` 42-147).  Besides the oracle it takes the
facts about the world the source queries: whether the script exists and its
content, plus the (randomly generated in the source) temporary file path.
Returns the Python result together with the ordered side-effect trace. -/
def submit_job (sp : Subproc) (sched tmpPath : String) (scriptExists : Bool)
    (scriptContent script : String) (name : Option String) (weight : Int)
    (gpu : Option String) (pr : String) (immediate : Bool) :
    Except PyExc String × List Effect :=
  if weight < 1 ∨ 1000 < weight then
    (.error (.valueError ("Weight must be an integer between 1 and 1000, got "
      ++ toString weight)), [])
  else if !validPriority pr then
    (.error (.valueError ("Priority must be one of (urgent, high, normal, low), got "
      ++ pr)), [])
  else if (match gpu with | some g => !validGpu g | none => false) then
    (.error (.valueError "Invalid GPU specification"), [])
  else if !scriptExists then
    (.error (.fileNotFoundError ("Script not found: " ++ script)), [.statScript script])
  else
    let content := String.intercalate "\n" (buildLines weight gpu pr scriptContent)
    let cmd := [sched, if immediate then "-srun" else "-qrun", tmpPath] ++
      (match name with
       | some n => if n = "" then [] else ["--name", n]
       | none => [])
    let effs := [Effect.statScript script, Effect.readScript script,
      Effect.writeTemp content, Effect.launch cmd, Effect.unlinkTemp]
    match sp cmd with
    | .raised (.subprocessError e) =>
      (.error (.runtimeError ("Failed to execute scheduler: " ++ e)), effs)
    | .raised (.osError e) =>
      (.error (.osError e), effs)
    | .ok r =>
      if r.returncode ≠ 0 then
        (.error (.runtimeError ("Job submission failed (exit code "
          ++ toString r.returncode ++ "): "
          ++ (if r.stderr == "" then r.stdout else r.stderr))), effs)
      else
        match findJobIdInLines (splitLines r.stdout) with
        | some jid => (.ok jid, effs)
        | none =>
          (.error (.runtimeError ("Failed to parse job ID from output: "
            ++ r.stdout)), effs)

structure StatusDict where
  output : String
  success : Bool

/-- `get_status` (lines 150-172): NO try/except around `subprocess.run`, so
every launch exception propagates to the caller unhandled. -/
def get_status (sp : Subproc) (sched : String) (job_id : Option String) :
    Except PyExc StatusDict :=
  let cmd := match job_id with
    | some j => if j = "" then [sched, "-status"] else [sched, "-info", j]
    | none => [sched, "-status"]
  match sp cmd with
  | .raised (.subprocessError e) => .error (.subprocessError e)
  | .raised (.osError e) => .error (.osError e)
  | .ok r => .ok ⟨r.stdout, r.returncode == 0⟩

/-- `kill_job` (lines 201-211): `except subprocess.SubprocessError` softens
exactly that exception class to the result `False`; an `OSError` launch
failure is not caught and propagates. -/
def kill_job (sp : Subproc) (sched job_id : String) : Except PyExc Bool :=
  match sp [sched, "-kill", job_id] with
  | .raised (.subprocessError _) => .ok false
  | .raised (.osError e) => .error (.osError e)
  | .ok r => .ok (r.returncode == 0)

/-- `pause_job` (lines 214-224), same exception handling as `kill_job`. -/
def pause_job (sp : Subproc) (sched job_id : String) : Except PyExc Bool :=
  match sp [sched, "-pause", job_id] with
  | .raised (.subprocessError _) => .ok false
  | .raised (.osError e) => .error (.osError e)
  | .ok r => .ok (r.returncode == 0)

/-- `resume_job` (lines 227-237), same exception handling as `kill_job`. -/
def resume_job (sp : Subproc) (sched job_id : String) : Except PyExc Bool :=
  match sp [sched, "-resume", job_id] with
  | .raised (.subprocessError _) => .ok false
  | .raised (.osError e) => .error (.osError e)
  | .ok r => .ok (r.returncode == 0)

/-- `get_logs` (lines 240-250): `except subprocess.SubprocessError` softens
exactly that class to an empty string; an `OSError` launch failure
propagates. -/
def get_logs (sp : Subproc) (sched job_id : String) : Except PyExc String :=
  match sp [sched, "-logs", job_id] with
  | .raised (.subprocessError _) => .ok ""
  | .raised (.osError e) => .error (.osError e)
  | .ok r => .ok r.stdout

/-- `if value: cmd.extend([flag, value])` for an optional filter. -/
def optFlag (flag : String) : Option String → List String
  | some v => if v = "" then [] else [flag, v]
  | none => []

/-- `search_jobs` (lines 253-282): like `get_status`, NO try/except — every
launch exception propagates.  `list(set(...))` is modelled as first-occurrence
deduplication (CPython set order is unspecified; no theorem depends on it). -/
def search_jobs (sp : Subproc) (sched : String) (name status_ pr : Option String) :
    Except PyExc (List String) :=
  let cmd := [sched, "-search"] ++ optFlag "--name" name ++
    optFlag "--status" status_ ++ optFlag "--priority" pr
  match sp cmd with
  | .raised (.subprocessError e) => .error (.subprocessError e)
  | .raised (.osError e) => .error (.osError e)
  | .ok r => .ok (findJobIds r.stdout).eraseDups

/-! ### `wait_for_job` (`job_helpers.py` 175-198): the polling classifier. -/

inductive PollClass
  | completed
  | failed
  | keepPolling
  | unknownFail
deriving DecidableEq, Repr

/-- The if/elif chain of the loop body, in source order. -/
def classify (output : String) : PollClass :=
  if substrIn "COMPLETED" output then .completed
  else if substrIn "FAILED" output then .failed
  else if substrIn "RUNNING" output || substrIn "QUEUED" output then .keepPolling
  else .unknownFail

/-- The polling loop over the sequence of status outputs it observes:
`some b` when the loop returns `b` within the observed outputs, `none` when
it is still polling after consuming them all. -/
def wait_for_job : List String → Option Bool
  | [] => none
  | o :: rest =>
    match classify o with
    | .completed => some true
    | .failed => some false
    | .keepPolling => wait_for_job rest
    | .unknownFail => some false

/-! ### Concrete instances used by witnesses and counterexamples -/

/-- Two live jobs: `job_001` ran for exactly 0 seconds, `job_002` for 5. -/
def cexFS : FS :=
  { liveInfo :=
      [("job_001", ["START_TIME=2024-01-01 00:00:00", "END_TIME=2024-01-01 00:00:00"]),
       ("job_002", ["START_TIME=2024-01-01 00:00:00", "END_TIME=2024-01-01 00:00:05"])]
    liveLog := []
    archive := [] }

/-- `a.get('runtime_seconds')`: the runtime field of an analysis dictionary
(`None` on the error dictionary, which has no such key). -/
def analysisRuntime : Analysis → Option Int
  | .err _ => none
  | .ok r => r.runtime_seconds

/-- One live job whose metadata has equal start and end timestamps. -/
def fs9 : FS :=
  { liveInfo :=
      [("job_007", ["START_TIME=2024-01-01 00:00:00", "END_TIME=2024-01-01 00:00:00"])]
    liveLog := []
    archive := [] }

/-- An archived-only job inside batch `001`, with a junk line and a value
containing `'='` in its metadata. -/
def archFS : FS :=
  { liveInfo := []
    liveLog := []
    archive := [⟨"001", [("job_042", ["STATUS=COMPLETED", "badline", "K=V=W"])], []⟩] }

/-- A scheduler oracle that always succeeds and prints a job id. -/
def okOracle : Subproc := fun _ => .ok ⟨0, "Submitted job_001\n", ""⟩

/-- Two analyses with accuracies 0.5 and 0.75 and runtimes 5 and 0, used to
exercise the comparison selection. -/
def fs1 : FS :=
  { liveInfo :=
      [("job_001", ["START_TIME=2024-01-01 00:00:00", "END_TIME=2024-01-01 00:00:00"]),
       ("job_002", ["START_TIME=2024-01-01 00:00:00", "END_TIME=2024-01-01 00:00:05"])]
    liveLog := [("job_001", "Accuracy: 0.75"), ("job_002", "Accuracy: 0.5")]
    archive := [] }

/-! ### Helper lemmas -/

theorem lookup_append_some {β : Type} (k : String) (v : β) :
    ∀ (l1 l2 : List (String × β)), List.lookup k l1 = some v →
      List.lookup k (l1 ++ l2) = some v := by
  intro l1
  induction l1 with
  | nil => intro l2 h; simp [List.lookup] at h
  | cons a as ih =>
    intro l2 h
    obtain ⟨k1, v1⟩ := a
    rw [List.cons_append, List.lookup_cons]
    rw [List.lookup_cons] at h
    cases hk : k == k1 with
    | true => simpa [hk] using h
    | false =>
      simp only [hk] at h ⊢
      exact ih l2 h

theorem lookup_append_none {β : Type} (k : String) :
    ∀ (l1 l2 : List (String × β)), List.lookup k l1 = none →
      List.lookup k (l1 ++ l2) = List.lookup k l2 := by
  intro l1
  induction l1 with
  | nil => intro l2 _; rfl
  | cons a as ih =>
    intro l2 h
    obtain ⟨k1, v1⟩ := a
    rw [List.cons_append, List.lookup_cons]
    rw [List.lookup_cons] at h
    cases hk : k == k1 with
    | true => simp [hk] at h
    | false =>
      simp only [hk] at h ⊢
      exact ih l2 h

theorem lookup_append_single_ne {β : Type} (k n : String) (w : β)
    (m : List (String × β)) (h : n ≠ k) :
    List.lookup k (m ++ [(n, w)]) = List.lookup k m := by
  cases hm : List.lookup k m with
  | some u => exact lookup_append_some k u m [(n, w)] hm
  | none =>
    rw [lookup_append_none k m [(n, w)] hm, List.lookup_cons]
    have : (k == n) = false := by
      simp [Ne.symm h]
    simp [this]

theorem findSome_first {α β : Type} (f : α → Option β) :
    ∀ (pre : List α) (b : α) (post : List α) (v : β),
      (∀ a ∈ pre, f a = none) → f b = some v →
      List.findSome? f (pre ++ b :: post) = some v := by
  intro pre
  induction pre with
  | nil =>
    intro b post v _ hb
    simp [List.findSome?_cons, hb]
  | cons a as ih =>
    intro b post v hall hb
    rw [List.cons_append, List.findSome?_cons, hall a (by simp)]
    exact ih b post v (fun x hx => hall x (List.mem_cons_of_mem _ hx)) hb

theorem extractGo_append (logs : String) :
    ∀ (ps qs : List (Pat × String)) (m : List (String × MetricValue)),
      extractGo logs (ps ++ qs) m = extractGo logs qs (extractGo logs ps m) := by
  intro ps
  induction ps with
  | nil => intro qs m; rfl
  | cons a ps ih =>
    intro qs m
    obtain ⟨p, name⟩ := a
    rw [List.cons_append]
    simp only [extractGo]
    exact ih qs _

theorem extractGo_lookup_preserved (logs : String) (name : String) (v : MetricValue) :
    ∀ (ps : List (Pat × String)) (m : List (String × MetricValue)),
      List.lookup name m = some v →
      List.lookup name (extractGo logs ps m) = some v := by
  intro ps
  induction ps with
  | nil => intro m h; exact h
  | cons a ps ih =>
    intro m h
    obtain ⟨p, n⟩ := a
    simp only [extractGo]
    cases hl : (findall p logs).getLast? with
    | none => simp only [hl]; exact ih m h
    | some w =>
      simp only [hl]
      exact ih _ (lookup_append_some name v m _ h)

theorem extractGo_lookup_skip (logs : String) (name : String) :
    ∀ (ps : List (Pat × String)) (m : List (String × MetricValue)),
      (∀ n ∈ ps.map Prod.snd, n ≠ name) →
      List.lookup name (extractGo logs ps m) = List.lookup name m := by
  intro ps
  induction ps with
  | nil => intro m _; rfl
  | cons a ps ih =>
    intro m hns
    obtain ⟨p, n⟩ := a
    simp only [extractGo]
    have hn : n ≠ name := hns n (by simp)
    have hrest : ∀ x ∈ ps.map Prod.snd, x ≠ name := by
      intro x hx
      exact hns x (by simp [hx])
    cases hl : (findall p logs).getLast? with
    | none => simp only [hl]; exact ih m hrest
    | some w =>
      simp only [hl]
      rw [ih _ hrest]
      exact lookup_append_single_ne name n (convertMetric w) m hn

/-- First-minimum/maximum characterisation of the selection fold of
`compare_jobs`, generic in the strict "better" comparison: the fold keeps the
accumulator unless the new element is strictly better, so it returns the first
best element.  The order-like hypotheses are restricted to members of the
scanned list. -/
theorem pickFoldSpec {α β : Type} (gt : β → β → Bool) :
    ∀ (xs : List (α × β)) (x r : α × β),
      xs.foldl (fun b y => if gt y.2 b.2 then y else b) x = r →
      (∀ a b c, a ∈ x :: xs → b ∈ x :: xs → c ∈ x :: xs →
        gt a.2 b.2 = true → gt b.2 c.2 = true → gt a.2 c.2 = true) →
      (∀ a b c, a ∈ x :: xs → b ∈ x :: xs → c ∈ x :: xs →
        gt a.2 b.2 = true → gt c.2 b.2 = false → gt a.2 c.2 = true) →
      (r = x ∧ ∀ y ∈ xs, gt y.2 x.2 = false) ∨
      (∃ pre post, xs = pre ++ r :: post ∧ gt r.2 x.2 = true ∧
        (∀ y ∈ pre, gt r.2 y.2 = true) ∧ (∀ y ∈ post, gt y.2 r.2 = false)) := by
  intro xs
  induction xs with
  | nil =>
    intro x r h _ _
    left
    exact ⟨h.symm, by simp⟩
  | cons y ys ih =>
    intro x r h htrans hcmp
    rw [List.foldl_cons] at h
    by_cases hy : gt y.2 x.2 = true
    · rw [if_pos hy] at h
      have htrans2 : ∀ a b c, a ∈ y :: ys → b ∈ y :: ys → c ∈ y :: ys →
          gt a.2 b.2 = true → gt b.2 c.2 = true → gt a.2 c.2 = true := by
        intro a b c ha hb hc
        exact htrans a b c (List.mem_cons_of_mem x ha) (List.mem_cons_of_mem x hb)
          (List.mem_cons_of_mem x hc)
      have hcmp2 : ∀ a b c, a ∈ y :: ys → b ∈ y :: ys → c ∈ y :: ys →
          gt a.2 b.2 = true → gt c.2 b.2 = false → gt a.2 c.2 = true := by
        intro a b c ha hb hc
        exact hcmp a b c (List.mem_cons_of_mem x ha) (List.mem_cons_of_mem x hb)
          (List.mem_cons_of_mem x hc)
      rcases ih y r h htrans2 hcmp2 with ⟨hr, hall⟩ | ⟨pre, post, heq, hgt, hpre, hpost⟩
      · subst hr
        right
        exact ⟨[], ys, rfl, hy, by simp, hall⟩
      · right
        have hrys : r ∈ ys := by
          rw [heq]
          exact List.mem_append_right pre (List.mem_cons_self r post)
        have hrmem : r ∈ x :: y :: ys := by simp [hrys]
        have hgtx : gt r.2 x.2 = true :=
          htrans r y x hrmem (by simp) (by simp) hgt hy
        refine ⟨y :: pre, post, by rw [List.cons_append, heq], hgtx, ?_, hpost⟩
        intro z hz
        rcases List.mem_cons.mp hz with rfl | hz2
        · exact hgt
        · exact hpre z hz2
    · have hyf : gt y.2 x.2 = false := by
        revert hy
        cases gt y.2 x.2 <;> simp
      rw [if_neg hy] at h
      have htrans2 : ∀ a b c, a ∈ x :: ys → b ∈ x :: ys → c ∈ x :: ys →
          gt a.2 b.2 = true → gt b.2 c.2 = true → gt a.2 c.2 = true := by
        intro a b c ha hb hc
        have hsub : ∀ w, w ∈ x :: ys → w ∈ x :: y :: ys := by
          intro w hw
          rcases List.mem_cons.mp hw with rfl | hw2
          · exact List.mem_cons_self _ _
          · simp [hw2]
        exact htrans a b c (hsub a ha) (hsub b hb) (hsub c hc)
      have hcmp2 : ∀ a b c, a ∈ x :: ys → b ∈ x :: ys → c ∈ x :: ys →
          gt a.2 b.2 = true → gt c.2 b.2 = false → gt a.2 c.2 = true := by
        intro a b c ha hb hc
        have hsub : ∀ w, w ∈ x :: ys → w ∈ x :: y :: ys := by
          intro w hw
          rcases List.mem_cons.mp hw with rfl | hw2
          · exact List.mem_cons_self _ _
          · simp [hw2]
        exact hcmp a b c (hsub a ha) (hsub b hb) (hsub c hc)
      rcases ih x r h htrans2 hcmp2 with ⟨hr, hall⟩ | ⟨pre, post, heq, hgt, hpre, hpost⟩
      · left
        refine ⟨hr, ?_⟩
        intro z hz
        rcases List.mem_cons.mp hz with rfl | hz2
        · exact hyf
        · exact hall z hz2
      · right
        have hrys : r ∈ ys := by
          rw [heq]
          exact List.mem_append_right pre (List.mem_cons_self r post)
        have hrmem : r ∈ x :: y :: ys := by simp [hrys]
        have hgty : gt r.2 y.2 = true :=
          hcmp r x y hrmem (by simp) (by simp) hgt hyf
        refine ⟨y :: pre, post, by rw [List.cons_append, heq], hgt, ?_, hpost⟩
        intro z hz
        rcases List.mem_cons.mp hz with rfl | hz2
        · exact hgty
        · exact hpre z hz2

theorem truthyRuntime_spec {a : Analysis} {p : String × Int}
    (h : truthyRuntime a = some p) :
    ∃ r, a = Analysis.ok r ∧ r.job_id = p.1 ∧ r.runtime_seconds = some p.2 ∧ p.2 ≠ 0 := by
  cases a with
  | err m => simp [truthyRuntime] at h
  | ok r =>
    simp only [truthyRuntime] at h
    split at h
    · rename_i v hrs
      split at h
      · exact absurd h (by simp)
      · rename_i hv
        rw [Option.some_inj] at h
        subst h
        exact ⟨r, rfl, rfl, hrs, hv⟩
    · exact absurd h (by simp)

theorem truthyAccuracy_spec {a : Analysis} {p : String × MetricValue}
    (h : truthyAccuracy a = some p) :
    ∃ r, a = Analysis.ok r ∧ r.job_id = p.1 ∧
      List.lookup "accuracy" r.metrics = some p.2 ∧ pyTruthy p.2 = true := by
  cases a with
  | err m => simp [truthyAccuracy] at h
  | ok r =>
    simp only [truthyAccuracy] at h
    split at h
    · rename_i v hrs
      split at h
      · rename_i hv
        rw [Option.some_inj] at h
        subst h
        exact ⟨r, rfl, rfl, hrs, hv⟩
      · exact absurd h (by simp)
    · exact absurd h (by simp)

theorem strptime_ne_sentinel {s : String} {d : DT} (h : strptime? s = some d) :
    ¬(s = "" ∨ s = "N/A") := by
  rintro (rfl | rfl)
  · rw [show strptime? "" = none from rfl] at h
    exact Option.noConfusion h
  · rw [show strptime? "N/A" = none from rfl] at h
    exact Option.noConfusion h

theorem calculate_runtime_some {info : List (String × String)} {s e : String} {ds de : DT}
    (hs : dictGet? info "START_TIME" = some s) (he : dictGet? info "END_TIME" = some e)
    (hps : strptime? s = some ds) (hpe : strptime? e = some de)
    (hle : dtSecs ds ≤ dtSecs de) :
    calculate_runtime info = some (dtSecs de - dtSecs ds) := by
  have hs1 : ¬(s = "" ∨ s = "N/A") := strptime_ne_sentinel hps
  have he1 : ¬(e = "" ∨ e = "N/A") := strptime_ne_sentinel hpe
  have hno : ¬(s = "" ∨ e = "" ∨ s = "N/A" ∨ e = "N/A") := by
    rintro (h1 | h1 | h1 | h1)
    · exact hs1 (Or.inl h1)
    · exact he1 (Or.inl h1)
    · exact hs1 (Or.inr h1)
    · exact he1 (Or.inr h1)
  unfold calculate_runtime
  rw [hs, he]
  simp only [if_neg hno, hps, hpe]
  rw [if_pos (by omega)]

/-! ### Claim theorems -/

theorem classify_eq_completed {o : String} (h : classify o = .completed) :
    substrIn "COMPLETED" o = true := by
  unfold classify at h
  split_ifs at h with h1 h2 h3
  exact h1

/-- C2 counterexample: on the log `Loss: abc` the loss pattern (whose value
part requires at least one digit or dot) does not match at all, so the
extracted record is empty — in particular `loss` is NOT the raw string
`"abc"` as the claim states. -/
theorem C2_counterexample : extract_metrics "Loss: abc" = [] := by decide

/-- C2 (amended): when the last match of a catalogue pattern exists but its
text fails numeric conversion, the raw matched text is retained as the value
(and extraction is total, hence never raises); concretely, `Loss: 1.2.3`
yields `loss = "1.2.3"`.  (For `Loss: abc` the pattern does not match and
`loss` is absent, per the counterexample.) -/
theorem C2_amended_thm :
    (∀ (logs name : String) (p : Pat) (pre post : List (Pat × String)) (v : String),
      metricPatterns = pre ++ (p, name) :: post →
      (∀ n ∈ pre.map Prod.snd, n ≠ name) →
      (findall p logs).getLast? = some v →
      pyFloat? v = none →
      List.lookup name (extract_metrics logs) = some (MetricValue.raw v)) ∧
    List.lookup "loss" (extract_metrics "Loss: 1.2.3") = some (MetricValue.raw "1.2.3") := by
  constructor
  · intro logs name p pre post v hcat hpre hlast hfail
    unfold extract_metrics
    rw [hcat, extractGo_append]
    simp only [extractGo, hlast]
    have hmpre : List.lookup name (extractGo logs pre []) = none := by
      rw [extractGo_lookup_skip logs name pre [] hpre]
      rfl
    have hconv : convertMetric v = MetricValue.raw v := by
      unfold convertMetric
      rw [hfail]
    apply extractGo_lookup_preserved
    rw [lookup_append_none name _ _ hmpre, List.lookup_cons]
    simp [hconv]
  · decide

/-- C2 witness: the amended theorem applied to the log `Loss: 1.2.3`. -/
theorem C2_witness :
    List.lookup "loss" (extract_metrics "Time: 3\nLoss: 1.2.3") = some (MetricValue.raw "1.2.3") :=
  C2_amended_thm.1 "Time: 3\nLoss: 1.2.3" "loss" lossPat [(accuracyPat, "accuracy")]
    [(timePat, "time"), (epochPat, "epochs"), (learningRatePat, "learning_rate"),
     (f1ScorePat, "f1_score"), (precisionPat, "precision"), (recallPat, "recall")]
    "1.2.3" rfl (by decide) (by decide) (by decide)

/-- C6: whenever a catalogue pattern has at least one match (so in particular
when it matches more than once), the extracted value is derived from the LAST
match in document order; concretely `Accuracy: 0.80` followed by
`Accuracy: 0.95` yields `accuracy = 0.95`. -/
theorem C6_thm :
    (∀ (logs name : String) (p : Pat) (pre post : List (Pat × String)) (v : String),
      metricPatterns = pre ++ (p, name) :: post →
      (∀ n ∈ pre.map Prod.snd, n ≠ name) →
      (findall p logs).getLast? = some v →
      List.lookup name (extract_metrics logs) = some (convertMetric v)) ∧
    findall accuracyPat "Accuracy: 0.80\nAccuracy: 0.95" = ["0.80", "0.95"] ∧
    List.lookup "accuracy" (extract_metrics "Accuracy: 0.80\nAccuracy: 0.95")
      = some (MetricValue.num (Rat.divInt 19 20)) := by
  refine ⟨?_, by decide, by decide⟩
  intro logs name p pre post v hcat hpre hlast
  unfold extract_metrics
  rw [hcat, extractGo_append]
  simp only [extractGo, hlast]
  have hmpre : List.lookup name (extractGo logs pre []) = none := by
    rw [extractGo_lookup_skip logs name pre [] hpre]
    rfl
  apply extractGo_lookup_preserved
  rw [lookup_append_none name _ _ hmpre, List.lookup_cons]
  simp

/-- C6 witness: the last of the three `Accuracy` matches wins. -/
theorem C6_witness :
    List.lookup "accuracy" (extract_metrics "Accuracy: 0.5\nAccuracy: 0.6\nAccuracy: 0.75")
      = some (convertMetric "0.75") :=
  C6_thm.1 "Accuracy: 0.5\nAccuracy: 0.6\nAccuracy: 0.75" "accuracy" accuracyPat []
    [(lossPat, "loss"), (timePat, "time"), (epochPat, "epochs"),
     (learningRatePat, "learning_rate"), (f1ScorePat, "f1_score"),
     (precisionPat, "precision"), (recallPat, "recall")]
    "0.75" rfl (by decide) (by decide)

/-- C8: the waiter classifies each observed status output by substring
presence — completed marker first, then failed, then queued/running — keeps
polling only on queued/running, terminates immediately treating any
unrecognised output as failure, and returns true only when the completed
marker was found. -/
theorem C8_thm :
    (∀ o : String, substrIn "COMPLETED" o = true → classify o = .completed) ∧
    (∀ o : String, substrIn "COMPLETED" o = false → substrIn "FAILED" o = true →
      classify o = .failed) ∧
    (∀ o : String, substrIn "COMPLETED" o = false → substrIn "FAILED" o = false →
      (substrIn "RUNNING" o || substrIn "QUEUED" o) = true → classify o = .keepPolling) ∧
    (∀ o : String, substrIn "COMPLETED" o = false → substrIn "FAILED" o = false →
      substrIn "RUNNING" o = false → substrIn "QUEUED" o = false →
      classify o = .unknownFail) ∧
    (∀ (o : String) (rest : List String), classify o = .keepPolling →
      wait_for_job (o :: rest) = wait_for_job rest) ∧
    (∀ (o : String) (rest : List String), classify o = .failed ∨ classify o = .unknownFail →
      wait_for_job (o :: rest) = some false) ∧
    (∀ (o : String) (rest : List String), classify o = .completed →
      wait_for_job (o :: rest) = some true) ∧
    (∀ outs : List String, wait_for_job outs = some true →
      ∃ o ∈ outs, substrIn "COMPLETED" o = true) := by
  refine ⟨?_, ?_, ?_, ?_, ?_, ?_, ?_, ?_⟩
  · intro o h
    simp [classify, h]
  · intro o h1 h2
    simp [classify, h1, h2]
  · intro o h1 h2 h3
    simp [classify, h1, h2, h3]
  · intro o h1 h2 h3 h4
    simp [classify, h1, h2, h3, h4]
  · intro o rest h
    simp [wait_for_job, h]
  · intro o rest h
    rcases h with h | h <;> simp [wait_for_job, h]
  · intro o rest h
    simp [wait_for_job, h]
  · intro outs
    induction outs with
    | nil => intro h; simp [wait_for_job] at h
    | cons o rest ih =>
      intro h
      simp only [wait_for_job] at h
      split at h
      · rename_i hc
        exact ⟨o, by simp, classify_eq_completed hc⟩
      · exact absurd h (by simp)
      · obtain ⟨o2, ho2, hs⟩ := ih h
        exact ⟨o2, by simp [ho2], hs⟩
      · exact absurd h (by simp)

/-- C8 witness: a queued output is polled past, and a completed output
terminates the wait with `true`. -/
theorem C8_witness :
    classify "job_001 COMPLETED" = PollClass.completed ∧
    wait_for_job ["job_001 QUEUED", "job_001 COMPLETED"] = some true := by
  constructor
  · exact C8_thm.1 "job_001 COMPLETED" (by decide)
  · rw [C8_thm.2.2.2.2.1 "job_001 QUEUED" ["job_001 COMPLETED"]
      (C8_thm.2.2.1 "job_001 QUEUED" (by decide) (by decide) (by decide))]
    exact C8_thm.2.2.2.2.2.2.1 "job_001 COMPLETED" []
      (C8_thm.1 "job_001 COMPLETED" (by decide))

/-- C3 counterexample: an actual launch failure of `subprocess.run` raises an
`OSError` (`FileNotFoundError`/`PermissionError`).  `get_status` has no
exception handler at all, and `kill_job`'s handler names only
`subprocess.SubprocessError`, which does not cover `OSError` — so in both
operations the launch failure propagates to the caller as an unhandled fault
instead of being wrapped or softened, contradicting the claim. -/
theorem C3_counterexample :
    get_status (fun _ => LaunchResult.raised (LaunchExc.osError "boom")) "wjm"
        (some "job_001")
      = Except.error (PyExc.osError "boom") ∧
    kill_job (fun _ => LaunchResult.raised (LaunchExc.osError "boom")) "wjm" "job_001"
      = Except.error (PyExc.osError "boom") :=
  ⟨rfl, rfl⟩

/-- C3 (amended): `kill`, `pause`, `resume`, `logs` and `submit` soften or
wrap exactly a `subprocess.SubprocessError` raised by the invocation (into
`False`, an empty string, or a `RuntimeError`), but none of the seven
operations handles the `OSError` that an actual launch failure raises — it
propagates unhandled from every one of them — and `status` and `search` have
no handler at all, propagating every launch exception. -/
theorem C3_amended_thm : ∀ (e sched jid : String),
    kill_job (fun _ => LaunchResult.raised (LaunchExc.subprocessError e)) sched jid
      = Except.ok false ∧
    pause_job (fun _ => LaunchResult.raised (LaunchExc.subprocessError e)) sched jid
      = Except.ok false ∧
    resume_job (fun _ => LaunchResult.raised (LaunchExc.subprocessError e)) sched jid
      = Except.ok false ∧
    get_logs (fun _ => LaunchResult.raised (LaunchExc.subprocessError e)) sched jid
      = Except.ok "" ∧
    (submit_job (fun _ => LaunchResult.raised (LaunchExc.subprocessError e)) sched
        "tmp.run" true "content" "script.sh" none 10 none "normal" false).1
      = Except.error (PyExc.runtimeError ("Failed to execute scheduler: " ++ e)) ∧
    kill_job (fun _ => LaunchResult.raised (LaunchExc.osError e)) sched jid
      = Except.error (PyExc.osError e) ∧
    pause_job (fun _ => LaunchResult.raised (LaunchExc.osError e)) sched jid
      = Except.error (PyExc.osError e) ∧
    resume_job (fun _ => LaunchResult.raised (LaunchExc.osError e)) sched jid
      = Except.error (PyExc.osError e) ∧
    get_logs (fun _ => LaunchResult.raised (LaunchExc.osError e)) sched jid
      = Except.error (PyExc.osError e) ∧
    (submit_job (fun _ => LaunchResult.raised (LaunchExc.osError e)) sched
        "tmp.run" true "content" "script.sh" none 10 none "normal" false)
      = (Except.error (PyExc.osError e),
         [Effect.statScript "script.sh", Effect.readScript "script.sh",
          Effect.writeTemp "content", Effect.launch [sched, "-qrun", "tmp.run"],
          Effect.unlinkTemp]) ∧
    get_status (fun _ => LaunchResult.raised (LaunchExc.subprocessError e)) sched
        (some jid)
      = Except.error (PyExc.subprocessError e) ∧
    get_status (fun _ => LaunchResult.raised (LaunchExc.osError e)) sched (some jid)
      = Except.error (PyExc.osError e) ∧
    search_jobs (fun _ => LaunchResult.raised (LaunchExc.subprocessError e)) sched
        none none none
      = Except.error (PyExc.subprocessError e) ∧
    search_jobs (fun _ => LaunchResult.raised (LaunchExc.osError e)) sched
        none none none
      = Except.error (PyExc.osError e) := by
  intro e sched jid
  exact ⟨rfl, rfl, rfl, rfl, rfl, rfl, rfl, rfl, rfl, rfl, rfl, rfl, rfl, rfl⟩

/-- C4: a submission with weight outside [1, 1000] or an invalid priority
fails with the `InvalidArgument`-style `ValueError` raised before ANY side
effect: the returned effect trace is empty — no script access, no temporary
file, no subprocess launch. -/
theorem C4_thm : ∀ (sp : Subproc) (sched tmpPath : String) (scriptExists : Bool)
    (scriptContent script : String) (name : Option String) (weight : Int)
    (gpu : Option String) (pr : String) (immediate : Bool),
    (weight < 1 ∨ 1000 < weight ∨
      ¬(pr = "urgent" ∨ pr = "high" ∨ pr = "normal" ∨ pr = "low")) →
    ∃ msg, submit_job sp sched tmpPath scriptExists scriptContent script name weight
      gpu pr immediate = (Except.error (PyExc.valueError msg), []) := by
  intro sp sched tmpPath se sc s n w g pr imm h
  unfold submit_job
  by_cases hw : w < 1 ∨ 1000 < w
  · rw [if_pos hw]
    exact ⟨_, rfl⟩
  · rw [if_neg hw]
    rcases h with h1 | h1 | h1
    · exact absurd (Or.inl h1) hw
    · exact absurd (Or.inr h1) hw
    · push_neg at h1
      have hv : validPriority pr = false := by
        simp [validPriority, h1.1, h1.2.1, h1.2.2.1, h1.2.2.2]
      rw [if_pos (by simp [hv])]
      exact ⟨_, rfl⟩

/-- C4 witness: `weight = 0` (and, for the priority arm, `"max"`) fail with a
`ValueError` and an empty effect trace. -/
theorem C4_witness :
    (∃ msg, submit_job okOracle "wjm" "tmp.run" true "content" "script.sh" none 0 none
      "normal" false = (Except.error (PyExc.valueError msg), [])) ∧
    (∃ msg, submit_job okOracle "wjm" "tmp.run" true "content" "script.sh" none 1001 none
      "normal" false = (Except.error (PyExc.valueError msg), [])) ∧
    (∃ msg, submit_job okOracle "wjm" "tmp.run" true "content" "script.sh" none 10 none
      "max" false = (Except.error (PyExc.valueError msg), [])) :=
  ⟨C4_thm okOracle "wjm" "tmp.run" true "content" "script.sh" none 0 none "normal" false
      (Or.inl (by norm_num)),
   C4_thm okOracle "wjm" "tmp.run" true "content" "script.sh" none 1001 none "normal" false
      (Or.inr (Or.inl (by norm_num))),
   C4_thm okOracle "wjm" "tmp.run" true "content" "script.sh" none 10 none "max" false
      (Or.inr (Or.inr (by simp)))⟩

/-- C10: the GPU-specification check is vacuous on degenerate inputs — the
empty string and a bare comma both pass validation (every character of the
stripped spec must be a digit or comma, no digit is required), and an empty
GPU spec produces no `# GPU:` directive line in the constructed submission
file, while `","` produces one. -/
theorem C10_thm :
    validGpu "" = true ∧ validGpu "," = true ∧
    buildLines 10 (some "") "normal" "echo run" = ["echo run"] ∧
    submit_job okOracle "wjm" "tmp.run" true "echo run" "train.sh" none 10 (some "")
        "normal" false
      = (Except.ok "job_001",
         [Effect.statScript "train.sh", Effect.readScript "train.sh",
          Effect.writeTemp "echo run", Effect.launch ["wjm", "-qrun", "tmp.run"],
          Effect.unlinkTemp]) ∧
    submit_job okOracle "wjm" "tmp.run" true "echo run" "train.sh" none 10 (some ",")
        "normal" false
      = (Except.ok "job_001",
         [Effect.statScript "train.sh", Effect.readScript "train.sh",
          Effect.writeTemp "# GPU: ,\necho run", Effect.launch ["wjm", "-qrun", "tmp.run"],
          Effect.unlinkTemp]) := by
  exact ⟨by decide, by decide, by decide, rfl, rfl⟩

/-- C7: the metadata reader checks the live directory first; otherwise it
scans the three-digit-named archive batches in listing order and stops at the
first batch containing the job; it returns `NotFound` (`none`) when no
metadata file exists anywhere; metadata lines without `'='` are ignored and
only the FIRST `'='` of a line splits key from value, so values may contain
`'='`. -/
theorem C7_thm :
    (∀ (fs : FS) (jid : String) (lines : List String),
      fs.liveInfo.lookup jid = some lines →
      get_job_info fs jid = some (parseInfo lines)) ∧
    (∀ (fs : FS) (jid : String) (b : Batch) (pre post : List Batch) (lines : List String),
      fs.liveInfo.lookup jid = none →
      (fs.archive.filter fun bb => isBatchName bb.name) = pre ++ b :: post →
      (∀ b2 ∈ pre, b2.jobsInfo.lookup jid = none) →
      b.jobsInfo.lookup jid = some lines →
      get_job_info fs jid = some (parseInfo lines)) ∧
    (∀ (fs : FS) (jid : String),
      fs.liveInfo.lookup jid = none →
      (∀ b2 ∈ fs.archive.filter fun bb => isBatchName bb.name,
        b2.jobsInfo.lookup jid = none) →
      get_job_info fs jid = none) ∧
    (∀ line : String, line.toList.contains '=' = false → parseLine line = none) ∧
    (∀ k v : List Char, k.contains '=' = false → breakAtEq (k ++ '=' :: v) = (k, v)) := by
  refine ⟨?_, ?_, ?_, ?_, ?_⟩
  · intro fs jid lines h
    unfold get_job_info
    rw [h]
  · intro fs jid b pre post lines hlive hfilter hpre hb
    unfold get_job_info
    rw [hlive, hfilter, findSome_first _ pre b post lines hpre hb]
  · intro fs jid hlive hall
    unfold get_job_info
    rw [hlive, List.findSome?_eq_none_iff.mpr hall]
  · intro line h
    unfold parseLine
    rw [if_neg (fun hc => by rw [h] at hc; exact Bool.noConfusion hc)]
  · intro k v h
    induction k with
    | nil => simp [breakAtEq]
    | cons c k ih =>
      rw [List.contains_cons, Bool.or_eq_false_iff] at h
      have h1 : ('=' : Char) ≠ c := by simpa using h.1
      have hc : ¬((c == '=') = true) := by
        simp only [beq_iff_eq]
        exact fun hcc => h1 hcc.symm
      rw [List.cons_append]
      simp only [breakAtEq, if_neg hc, ih h.2]

/-- C7 witness: an archived-only job is found in batch `001`; the junk line
is skipped and `K=V=W` splits at the first `'='` only. -/
theorem C7_witness :
    get_job_info archFS "job_042" = some [("STATUS", "COMPLETED"), ("K", "V=W")] := by
  have h := C7_thm.2.1 archFS "job_042"
    ⟨"001", [("job_042", ["STATUS=COMPLETED", "badline", "K=V=W"])], []⟩ [] []
    ["STATUS=COMPLETED", "badline", "K=V=W"]
    (by decide) (by decide) (by intro b2 hb2; simp at hb2) (by decide)
  exact h.trans (by decide)

/-- C5: `calculate_runtime` returns exactly `end − start` in whole seconds
when both timestamp fields are present, non-empty, non-sentinel, parse under
the fixed `YYYY-MM-DD HH:MM:SS` format and `end ≥ start`; it returns Absent
(`none`), never raising (the model is a total function), when either field is
missing, empty, the `N/A` sentinel, unparseable, or when the difference is
negative. -/
theorem C5_thm :
    (∀ (info : List (String × String)) (s e : String) (ds de : DT),
      dictGet? info "START_TIME" = some s → dictGet? info "END_TIME" = some e →
      strptime? s = some ds → strptime? e = some de → dtSecs ds ≤ dtSecs de →
      calculate_runtime info = some (dtSecs de - dtSecs ds)) ∧
    (∀ info : List (String × String), dictGet? info "START_TIME" = none →
      calculate_runtime info = none) ∧
    (∀ info : List (String × String), dictGet? info "END_TIME" = none →
      calculate_runtime info = none) ∧
    (∀ (info : List (String × String)) (s e : String),
      dictGet? info "START_TIME" = some s → dictGet? info "END_TIME" = some e →
      (s = "" ∨ e = "" ∨ s = "N/A" ∨ e = "N/A") →
      calculate_runtime info = none) ∧
    (∀ (info : List (String × String)) (s e : String),
      dictGet? info "START_TIME" = some s → dictGet? info "END_TIME" = some e →
      (strptime? s = none ∨ strptime? e = none) →
      calculate_runtime info = none) ∧
    (∀ (info : List (String × String)) (s e : String) (ds de : DT),
      dictGet? info "START_TIME" = some s → dictGet? info "END_TIME" = some e →
      strptime? s = some ds → strptime? e = some de → dtSecs de < dtSecs ds →
      calculate_runtime info = none) := by
  refine ⟨?_, ?_, ?_, ?_, ?_, ?_⟩
  · intro info s e ds de hs he hps hpe hle
    exact calculate_runtime_some hs he hps hpe hle
  · intro info h
    unfold calculate_runtime
    rw [h]
  · intro info h
    unfold calculate_runtime
    rw [h]
    cases dictGet? info "START_TIME" <;> rfl
  · intro info s e hs he hsent
    unfold calculate_runtime
    rw [hs, he]
    simp only [if_pos hsent]
  · intro info s e hs he hfail
    unfold calculate_runtime
    rw [hs, he]
    by_cases hsent : s = "" ∨ e = "" ∨ s = "N/A" ∨ e = "N/A"
    · simp only [if_pos hsent]
    · simp only [if_neg hsent]
      rcases hfail with h | h
      · rw [h]
      · rw [h]
        cases strptime? s <;> rfl
  · intro info s e ds de hs he hps hpe hlt
    have hs1 : ¬(s = "" ∨ s = "N/A") := strptime_ne_sentinel hps
    have he1 : ¬(e = "" ∨ e = "N/A") := strptime_ne_sentinel hpe
    have hno : ¬(s = "" ∨ e = "" ∨ s = "N/A" ∨ e = "N/A") := by
      rintro (h1 | h1 | h1 | h1)
      · exact hs1 (Or.inl h1)
      · exact he1 (Or.inl h1)
      · exact hs1 (Or.inr h1)
      · exact he1 (Or.inr h1)
    unfold calculate_runtime
    rw [hs, he]
    simp only [if_neg hno, hps, hpe]
    rw [if_neg (by omega)]

/-- C5 witness: a concrete two-minute-five-second run and the absence case
when the end sentinel is `N/A`. -/
theorem C5_witness :
    calculate_runtime
        [("START_TIME", "2024-03-01 10:00:00"), ("END_TIME", "2024-03-01 10:02:05")]
      = some 125 ∧
    calculate_runtime [("START_TIME", "2024-03-01 10:00:00"), ("END_TIME", "N/A")]
      = none := by
  constructor
  · have h := C5_thm.1
      [("START_TIME", "2024-03-01 10:00:00"), ("END_TIME", "2024-03-01 10:02:05")]
      "2024-03-01 10:00:00" "2024-03-01 10:02:05"
      ⟨2024, 3, 1, 10, 0, 0⟩ ⟨2024, 3, 1, 10, 2, 5⟩
      (by decide) (by decide) (by decide) (by decide) (by decide)
    exact h.trans (by decide)
  · exact C5_thm.2.2.2.1 [("START_TIME", "2024-03-01 10:00:00"), ("END_TIME", "N/A")]
      "2024-03-01 10:00:00" "N/A" (by decide) (by decide) (Or.inr (Or.inr (Or.inr rfl)))

/-- C9: a job with equal, well-formed start and end timestamps has
`runtime_seconds = 0` present in its analysis, yet `runtime_formatted` is
`"N/A"` and `compare_jobs` contributes no valid-runtime pair for it, so it is
excluded from the best-runtime selection — a zero runtime is treated as
absent wherever a truthiness check guards it. -/
theorem C9_thm : ∀ (fs : FS) (jid : String) (info : List (String × String))
    (s : String) (d : DT),
    get_job_info fs jid = some info → info ≠ [] →
    dictGet? info "START_TIME" = some s → dictGet? info "END_TIME" = some s →
    strptime? s = some d →
    ∃ r, analyze_job fs jid = .ok r ∧ r.runtime_seconds = some 0 ∧
      r.runtime_formatted = "N/A" ∧ truthyRuntime (.ok r) = none ∧
      (compare_jobs fs [jid]).best_runtime = none := by
  intro fs jid info s d hinfo hne hs he hp
  have hcalc : calculate_runtime info = some 0 := by
    have h := calculate_runtime_some hs he hp hp (le_refl _)
    simpa using h
  have hanalyze : analyze_job fs jid = .ok (mkRecord fs jid info) := by
    unfold analyze_job
    rw [hinfo]
    exact if_neg (fun hc => hne (List.isEmpty_iff.mp hc))
  have hrt : (mkRecord fs jid info).runtime_seconds = some 0 := by
    simp only [mkRecord]
    exact hcalc
  have htruthy : truthyRuntime (.ok (mkRecord fs jid info)) = none := by
    simp [truthyRuntime, hrt]
  refine ⟨mkRecord fs jid info, hanalyze, hrt, ?_, htruthy, ?_⟩
  · simp [mkRecord, hcalc]
  · have hjobs : (compare_jobs fs [jid]).best_runtime
        = pickMin (validRuntimePairs [analyze_job fs jid]) := rfl
    rw [hjobs, hanalyze]
    simp [validRuntimePairs, htruthy, pickMin]

/-- C9 witness: the theorem at a concrete one-job filesystem. -/
theorem C9_witness :
    ∃ r, analyze_job fs9 "job_007" = .ok r ∧ r.runtime_seconds = some 0 ∧
      r.runtime_formatted = "N/A" ∧ truthyRuntime (.ok r) = none ∧
      (compare_jobs fs9 ["job_007"]).best_runtime = none :=
  C9_thm fs9 "job_007"
    [("START_TIME", "2024-01-01 00:00:00"), ("END_TIME", "2024-01-01 00:00:00")]
    "2024-01-01 00:00:00" ⟨2024, 1, 1, 0, 0, 0⟩
    (by decide) (by decide) (by decide) (by decide) (by decide)

theorem validRuntime_mem {l : List Analysis} {p : String × Int}
    (hp : p ∈ validRuntimePairs l) :
    ∃ r0, Analysis.ok r0 ∈ l ∧ r0.job_id = p.1 ∧
      r0.runtime_seconds = some p.2 ∧ p.2 ≠ 0 := by
  obtain ⟨a, ha, hta⟩ := List.mem_filterMap.mp hp
  obtain ⟨r0, rfl, h1, h2, h3⟩ := truthyRuntime_spec hta
  exact ⟨r0, ha, h1, h2, h3⟩

theorem validAccuracy_mem {l : List Analysis} {p : String × MetricValue}
    (hp : p ∈ validAccuracyPairs l) :
    ∃ r0, Analysis.ok r0 ∈ l ∧ r0.job_id = p.1 := by
  obtain ⟨a, ha, hta⟩ := List.mem_filterMap.mp hp
  obtain ⟨r0, rfl, h1, _, _⟩ := truthyAccuracy_spec hta
  exact ⟨r0, ha, h1⟩

/-- C1 counterexample: `job_001` has a PRESENT runtime of exactly `0` seconds,
numerically smaller than `job_002`'s 5 seconds, yet `compare_jobs` selects
`job_002` as best runtime — the truthiness guard excludes a zero runtime, so
the claim "smallest present runtime" fails as stated. -/
theorem C1_counterexample :
    analysisRuntime (analyze_job cexFS "job_001") = some 0 ∧
    analysisRuntime (analyze_job cexFS "job_002") = some 5 ∧
    (0 : Int) < 5 ∧
    (compare_jobs cexFS ["job_001", "job_002"]).best_runtime = some "job_002" := by
  exact ⟨by decide, by decide, by decide, by decide⟩

/-- C1 (amended): `compare_jobs` selects as best runtime the job of the
analysis with the numerically smallest present NONZERO runtime (ties broken
by input order, first occurrence wins), and as best accuracy the analysis
with the numerically largest present truthy (nonzero) accuracy among numeric
accuracy values (same tie-break); it never selects an error-tagged
(`NotFound`) analysis for either, and leaves the field absent (`none`) when
no analysis passes the truthiness guard — in particular a runtime or
accuracy equal to zero never wins. -/
theorem pickMin_none_iff (l : List (String × Int)) : pickMin l = none ↔ l = [] := by
  cases l <;> simp [pickMin]

theorem pickMax_none_iff (l : List (String × MetricValue)) : pickMax l = none ↔ l = [] := by
  cases l <;> simp [pickMax]

/-- `pickMin` returns the FIRST pair attaining the minimum value: there is a
decomposition where everything before the winner is strictly larger and the
winner is a lower bound of the whole list. -/
theorem pickMin_spec (l : List (String × Int)) (j : String) (h : pickMin l = some j) :
    ∃ pre p post, l = pre ++ p :: post ∧ p.1 = j ∧
      (∀ y ∈ pre, p.2 < y.2) ∧ (∀ y ∈ l, p.2 ≤ y.2) := by
  cases l with
  | nil => simp [pickMin] at h
  | cons x xs =>
    simp only [pickMin, Option.some_inj] at h
    have htrans : ∀ a b c : String × Int, a ∈ x :: xs → b ∈ x :: xs → c ∈ x :: xs →
        ltIntB a.2 b.2 = true → ltIntB b.2 c.2 = true → ltIntB a.2 c.2 = true := by
      intro a b c _ _ _ h1 h2
      simp only [ltIntB, decide_eq_true_eq] at h1 h2 ⊢
      omega
    have hcmp : ∀ a b c : String × Int, a ∈ x :: xs → b ∈ x :: xs → c ∈ x :: xs →
        ltIntB a.2 b.2 = true → ltIntB c.2 b.2 = false → ltIntB a.2 c.2 = true := by
      intro a b c _ _ _ h1 h2
      simp only [ltIntB, decide_eq_true_eq, decide_eq_false_iff_not] at h1 h2 ⊢
      omega
    set r := xs.foldl (fun b y => if ltIntB y.2 b.2 then y else b) x with hr
    rcases pickFoldSpec ltIntB xs x r hr.symm htrans hcmp with
      ⟨hrx, hall⟩ | ⟨pre0, post, heq, hgt, hpre, hpost⟩
    · rw [hrx] at h
      refine ⟨[], x, xs, rfl, h, by simp, ?_⟩
      intro y hy
      rcases List.mem_cons.mp hy with rfl | hy2
      · exact le_refl _
      · have h5 := hall y hy2
        simp only [ltIntB, decide_eq_false_iff_not] at h5
        omega
    · have hlt : r.2 < x.2 := by
        simpa [ltIntB] using hgt
      refine ⟨x :: pre0, r, post, by rw [heq]; rfl, h, ?_, ?_⟩
      · intro y hy
        rcases List.mem_cons.mp hy with rfl | hy2
        · exact hlt
        · have h5 := hpre y hy2
          simpa [ltIntB] using h5
      · intro y hy
        rcases List.mem_cons.mp hy with rfl | hy2
        · exact le_of_lt hlt
        · rw [heq] at hy2
          rcases List.mem_append.mp hy2 with hy3 | hy3
          · have h5 := hpre y hy3
            simp only [ltIntB, decide_eq_true_eq] at h5
            omega
          · rcases List.mem_cons.mp hy3 with rfl | hy4
            · exact le_refl _
            · have h5 := hpost y hy4
              simp only [ltIntB, decide_eq_false_iff_not] at h5
              omega

/-- `pickMax` over all-numeric values returns the FIRST pair attaining the
maximum. -/
theorem pickMax_spec (l : List (String × MetricValue)) (j : String)
    (hnum : ∀ y ∈ l, ∃ q, y.2 = MetricValue.num q) (h : pickMax l = some j) :
    ∃ pre p post q, l = pre ++ p :: post ∧ p.1 = j ∧ p.2 = MetricValue.num q ∧
      (∀ y qy, y ∈ pre → y.2 = MetricValue.num qy → qy < q) ∧
      (∀ y qy, y ∈ l → y.2 = MetricValue.num qy → qy ≤ q) := by
  cases l with
  | nil => simp [pickMax] at h
  | cons x xs =>
    simp only [pickMax, Option.some_inj] at h
    have htrans : ∀ a b c : String × MetricValue,
        a ∈ x :: xs → b ∈ x :: xs → c ∈ x :: xs →
        pyGtB a.2 b.2 = true → pyGtB b.2 c.2 = true → pyGtB a.2 c.2 = true := by
      intro a b c ha hb hc h1 h2
      obtain ⟨qa, hqa⟩ := hnum a ha
      obtain ⟨qb, hqb⟩ := hnum b hb
      obtain ⟨qc, hqc⟩ := hnum c hc
      rw [hqa, hqb] at h1
      rw [hqb, hqc] at h2
      rw [hqa, hqc]
      simp only [pyGtB, decide_eq_true_eq] at h1 h2 ⊢
      exact lt_trans h2 h1
    have hcmp : ∀ a b c : String × MetricValue,
        a ∈ x :: xs → b ∈ x :: xs → c ∈ x :: xs →
        pyGtB a.2 b.2 = true → pyGtB c.2 b.2 = false → pyGtB a.2 c.2 = true := by
      intro a b c ha hb hc h1 h2
      obtain ⟨qa, hqa⟩ := hnum a ha
      obtain ⟨qb, hqb⟩ := hnum b hb
      obtain ⟨qc, hqc⟩ := hnum c hc
      rw [hqa, hqb] at h1
      rw [hqc, hqb] at h2
      rw [hqa, hqc]
      simp only [pyGtB, decide_eq_true_eq, decide_eq_false_iff_not] at h1 h2 ⊢
      exact lt_of_le_of_lt (not_lt.mp h2) h1
    set r := xs.foldl (fun b y => if pyGtB y.2 b.2 then y else b) x with hr
    rcases pickFoldSpec pyGtB xs x r hr.symm htrans hcmp with
      ⟨hrx, hall⟩ | ⟨pre0, post, heq, hgt, hpre, hpost⟩
    · rw [hrx] at h
      obtain ⟨q, hq⟩ := hnum x (List.mem_cons_self x xs)
      refine ⟨[], x, xs, q, rfl, h, hq, by simp, ?_⟩
      intro y qy hy hqy
      rcases List.mem_cons.mp hy with rfl | hy2
      · have h6 := hq.symm.trans hqy
        injection h6 with h7
        exact le_of_eq h7.symm
      · have h5 := hall y hy2
        rw [hqy, hq] at h5
        simp only [pyGtB, decide_eq_false_iff_not] at h5
        exact not_lt.mp h5
    · have hrin : r ∈ x :: xs := by
        refine List.mem_cons_of_mem x ?_
        rw [heq]
        exact List.mem_append_right pre0 (List.mem_cons_self _ post)
      obtain ⟨q, hq⟩ := hnum _ hrin
      obtain ⟨qx, hqx⟩ := hnum x (List.mem_cons_self x xs)
      have hqxlt : qx < q := by
        have h5 := hgt
        rw [hq, hqx] at h5
        simpa [pyGtB] using h5
      refine ⟨x :: pre0, r, post, q, by rw [heq]; rfl, h, hq, ?_, ?_⟩
      · intro y qy hy hqy
        rcases List.mem_cons.mp hy with rfl | hy2
        · have h6 := hqx.symm.trans hqy
          injection h6 with h7
          rw [← h7]
          exact hqxlt
        · have h5 := hpre y hy2
          rw [hq, hqy] at h5
          simpa [pyGtB] using h5
      · intro y qy hy hqy
        rcases List.mem_cons.mp hy with rfl | hy2
        · have h6 := hqx.symm.trans hqy
          injection h6 with h7
          rw [← h7]
          exact le_of_lt hqxlt
        · rw [heq] at hy2
          rcases List.mem_append.mp hy2 with hy3 | hy3
          · have h5 := hpre y hy3
            rw [hq, hqy] at h5
            simp only [pyGtB, decide_eq_true_eq] at h5
            exact le_of_lt h5
          · rcases List.mem_cons.mp hy3 with rfl | hy4
            · have h6 := hq.symm.trans hqy
              injection h6 with h7
              exact le_of_eq h7.symm
            · have h5 := hpost y hy4
              rw [hqy, hq] at h5
              simp only [pyGtB, decide_eq_false_iff_not] at h5
              exact not_lt.mp h5

theorem C1_amended_thm : ∀ (fs : FS) (ids : List String),
    ((compare_jobs fs ids).best_runtime = none ↔
      validRuntimePairs ((compare_jobs fs ids).jobs) = []) ∧
    (∀ j, (compare_jobs fs ids).best_runtime = some j →
      ∃ pre p post, validRuntimePairs ((compare_jobs fs ids).jobs) = pre ++ p :: post ∧
        p.1 = j ∧ (∀ y ∈ pre, p.2 < y.2) ∧
        (∀ y ∈ validRuntimePairs ((compare_jobs fs ids).jobs), p.2 ≤ y.2) ∧
        ∃ r, Analysis.ok r ∈ (compare_jobs fs ids).jobs ∧ r.job_id = j ∧
          r.runtime_seconds = some p.2 ∧ p.2 ≠ 0) ∧
    ((compare_jobs fs ids).best_accuracy = none ↔
      validAccuracyPairs ((compare_jobs fs ids).jobs) = []) ∧
    (∀ j, (∀ y ∈ validAccuracyPairs ((compare_jobs fs ids).jobs),
        ∃ q, y.2 = MetricValue.num q) →
      (compare_jobs fs ids).best_accuracy = some j →
      ∃ pre p post q,
        validAccuracyPairs ((compare_jobs fs ids).jobs) = pre ++ p :: post ∧
        p.1 = j ∧ p.2 = MetricValue.num q ∧
        (∀ y qy, y ∈ pre → y.2 = MetricValue.num qy → qy < q) ∧
        (∀ y qy, y ∈ validAccuracyPairs ((compare_jobs fs ids).jobs) →
          y.2 = MetricValue.num qy → qy ≤ q) ∧
        ∃ r, Analysis.ok r ∈ (compare_jobs fs ids).jobs ∧ r.job_id = j) := by
  intro fs ids
  have hbr : (compare_jobs fs ids).best_runtime
      = pickMin (validRuntimePairs ((compare_jobs fs ids).jobs)) := rfl
  have hba : (compare_jobs fs ids).best_accuracy
      = pickMax (validAccuracyPairs ((compare_jobs fs ids).jobs)) := rfl
  refine ⟨?_, ?_, ?_, ?_⟩
  · rw [hbr]
    exact pickMin_none_iff _
  · intro j hj
    rw [hbr] at hj
    obtain ⟨pre, p, post, hdec, hpj, hpre, hle⟩ := pickMin_spec _ j hj
    have hp : p ∈ validRuntimePairs ((compare_jobs fs ids).jobs) := by
      rw [hdec]
      exact List.mem_append_right pre (List.mem_cons_self p post)
    obtain ⟨r0, hr0, h1, h2, h3⟩ := validRuntime_mem hp
    exact ⟨pre, p, post, hdec, hpj, hpre, hle, r0, hr0, h1.trans hpj, h2, h3⟩
  · rw [hba]
    exact pickMax_none_iff _
  · intro j hnum hj
    rw [hba] at hj
    obtain ⟨pre, p, post, q, hdec, hpj, hpq, hpre, hle⟩ := pickMax_spec _ j hnum hj
    have hp : p ∈ validAccuracyPairs ((compare_jobs fs ids).jobs) := by
      rw [hdec]
      exact List.mem_append_right pre (List.mem_cons_self p post)
    obtain ⟨r0, hr0, h1⟩ := validAccuracy_mem hp
    exact ⟨pre, p, post, q, hdec, hpj, hpq, hpre, hle, r0, hr0, h1.trans hpj⟩

/-- C1 witness: the amended theorem applied to a concrete two-job comparison
where `job_001` has runtime 0 (excluded) and `job_002` has runtime 5. -/
theorem C1_witness :
    ∃ pre p post,
      validRuntimePairs ((compare_jobs fs1 ["job_001", "job_002"]).jobs)
        = pre ++ p :: post ∧
      p.1 = "job_002" ∧ (∀ y ∈ pre, p.2 < y.2) ∧
      (∀ y ∈ validRuntimePairs ((compare_jobs fs1 ["job_001", "job_002"]).jobs),
        p.2 ≤ y.2) ∧
      ∃ r, Analysis.ok r ∈ (compare_jobs fs1 ["job_001", "job_002"]).jobs ∧
        r.job_id = "job_002" ∧ r.runtime_seconds = some p.2 ∧ p.2 ≠ 0 :=
  (C1_amended_thm fs1 ["job_001", "job_002"]).2.1 "job_002" (by decide)

end Wjm
